import Mathlib

/-!
Verification development for the `fhe-rock-paper-scissors` repository.

The repository contains two Solidity contract families:

* `RockPaperScissors` (src/contracts/RockPaperScissors.sol): a two-player
  wagering game whose move choices are stored as `bytes32` handles; in the
  shipped build the constant `DEV_MODE = true` makes resolution compare the
  low byte of the two handles in plaintext.
* `CloudFHE`: an encrypted file registry.  Two variants are in the tree:
  the "FHEVM-ready" one (src/contracts/CloudFHE.sol) whose FHE/ACL calls are
  comments, and the full FHEVM one (src/unnamed/part_000) whose size
  comparison really checks `FHE.isSenderAllowed` on both operands.

Below, each contract is shallowly embedded: storage becomes a record,
`mapping`s become functions with the Solidity zero-value default,
`require`/revert becomes `Except.error`, `msg.sender`/`msg.value`/
`block.timestamp` become explicit arguments, and external FHE primitives are
modelled symbolically (opaque `Nat` handles, an explicit ACL table, a fresh
handle counter).  Addresses and 256-bit words are modelled as `Nat`; the
only arithmetic the claims depend on is `& 0xFF` (modelled as `% 256`) and
counters that never overflow 2^256 in any scenario considered here.
-/

/-- Pointwise update of a Solidity `mapping` modelled as a function. -/
def updMap {α : Type} (m : Nat → α) (k : Nat) (v : α) : Nat → α :=
  fun i => if i = k then v else m i

theorem updMap_same {α : Type} (m : Nat → α) (k : Nat) (v : α) :
    updMap m k v k = v := by
  simp [updMap]

theorem updMap_other {α : Type} (m : Nat → α) (k : Nat) (v : α) (i : Nat)
    (h : i ≠ k) : updMap m k v i = m i := by
  simp [updMap, h]

namespace RPS

/-- Game states, as in `enum GameState { Waiting, BothPlayed, Finished, Cancelled }`. -/
inductive GameState where
  | Waiting
  | BothPlayed
  | Finished
  | Cancelled
deriving DecidableEq, Repr

/-- The `Game` struct of `RockPaperScissors.sol`.  Addresses and `bytes32`
handles are `Nat`; `address(0)` is `0`. -/
structure Game where
  player1 : Nat
  player2 : Nat
  player1ChoiceHandle : Nat
  player2ChoiceHandle : Nat
  state : GameState
  winner : Nat
  betAmount : Nat
  createdAt : Nat
  finishedAt : Nat
  exists_ : Bool
deriving DecidableEq, Repr

/-- The `PlayerStats` struct. -/
structure PlayerStats where
  totalGames : Nat
  wins : Nat
  losses : Nat
  ties : Nat
  totalWinnings : Nat
deriving DecidableEq, Repr

/-- Contract storage of `RockPaperScissors`. -/
structure RPSState where
  games : Nat → Game
  playerStats : Nat → PlayerStats
  nextGameId : Nat
  totalGamesPlayed : Nat
  totalVolume : Nat

/-- `bool public constant DEV_MODE = true;` (RockPaperScissors.sol line 52). -/
def DEV_MODE : Bool := true

/-- `0.00000001 ether` in wei. -/
def MIN_BET : Nat := 10000000000

/-- `1 ether` in wei. -/
def MAX_BET : Nat := 1000000000000000000

/-- Solidity zero value of the `Game` struct (mapping default). -/
def defaultGame : Game :=
  { player1 := 0, player2 := 0, player1ChoiceHandle := 0, player2ChoiceHandle := 0,
    state := GameState.Waiting, winner := 0, betAmount := 0, createdAt := 0,
    finishedAt := 0, exists_ := false }

/-- Solidity zero value of the `PlayerStats` struct. -/
def defaultStats : PlayerStats :=
  { totalGames := 0, wins := 0, losses := 0, ties := 0, totalWinnings := 0 }

/-- Storage right after the constructor ran. -/
def initState : RPSState :=
  { games := fun _ => defaultGame, playerStats := fun _ => defaultStats,
    nextGameId := 0, totalGamesPlayed := 0, totalVolume := 0 }

/-- `_calculateGameResult`: requires `BothPlayed`; under `DEV_MODE` compares
the low byte of the two stored handles (`& 0xFF` is `% 256`) with the
explicit three-way rule of the source, then marks the game `Finished` and
bumps the global counters.  The per-player `playerStats` mapping is not
touched here. -/
def calculateGameResult (s : RPSState) (gameId t : Nat) : Except String RPSState :=
  let game := s.games gameId
  if game.state = GameState.BothPlayed then
    let winner :=
      if DEV_MODE = true then
        let c1 := game.player1ChoiceHandle % 256
        let c2 := game.player2ChoiceHandle % 256
        if c1 = c2 then 0
        else if (c1 = 0 ∧ c2 = 1) ∨ (c1 = 1 ∧ c2 = 2) ∨ (c1 = 2 ∧ c2 = 0) then
          game.player1
        else game.player2
      else game.winner
    Except.ok { s with
      games := updMap s.games gameId
        { game with winner := winner, state := GameState.Finished, finishedAt := t }
      totalGamesPlayed := s.totalGamesPlayed + 1
      totalVolume := s.totalVolume + game.betAmount * 2 }
  else Except.error "Both players must have played"

/-- `createGame`: the FHE entry point.  `FHE.fromExternal`/`FHE.isSenderAllowed`
are external; their combined outcome is the `senderAllowed` argument and the
imported handle is the `handle` argument. -/
def createGame (s : RPSState) (sender value handle : Nat) (senderAllowed : Bool)
    (t : Nat) : Except String (RPSState × Nat) :=
  if MIN_BET ≤ value ∧ value ≤ MAX_BET then
    if senderAllowed = true then
      let gameId := s.nextGameId
      Except.ok ({ s with
        nextGameId := gameId + 1
        games := updMap s.games gameId
          { player1 := sender, player2 := 0, player1ChoiceHandle := handle,
            player2ChoiceHandle := 0, state := GameState.Waiting, winner := 0,
            betAmount := value, createdAt := t, finishedAt := 0, exists_ := true } },
        gameId)
    else Except.error "Caller not allowed for provided choice"
  else Except.error "Invalid bet amount"

/-- `joinGame`: the FHE entry point; ends by calling `_calculateGameResult`. -/
def joinGame (s : RPSState) (gameId sender value handle : Nat)
    (senderAllowed : Bool) (t : Nat) : Except String RPSState :=
  if (s.games gameId).exists_ = true then
    if (s.games gameId).state = GameState.Waiting then
      if (s.games gameId).player1 ≠ sender then
        if value = (s.games gameId).betAmount then
          if senderAllowed = true then
            let s2 := { s with
              games := updMap s.games gameId
                { (s.games gameId) with
                  player2 := sender
                  player2ChoiceHandle := handle
                  state := GameState.BothPlayed } }
            calculateGameResult s2 gameId t
          else Except.error "Caller not allowed for provided choice"
        else Except.error "Bet amount must match"
      else Except.error "Cannot join your own game"
    else Except.error "Game not waiting for players"
  else Except.error "Game does not exist"

/-- `createGameMock`: dev entry point taking a plaintext choice. -/
def createGameMock (s : RPSState) (sender value plainChoice t : Nat) :
    Except String (RPSState × Nat) :=
  if DEV_MODE = true then
    if MIN_BET ≤ value ∧ value ≤ MAX_BET then
      if plainChoice ≤ 2 then
        let gameId := s.nextGameId
        Except.ok ({ s with
          nextGameId := gameId + 1
          games := updMap s.games gameId
            { player1 := sender, player2 := 0, player1ChoiceHandle := plainChoice,
              player2ChoiceHandle := 0, state := GameState.Waiting, winner := 0,
              betAmount := value, createdAt := t, finishedAt := 0, exists_ := true } },
          gameId)
      else Except.error "Invalid choice"
    else Except.error "Invalid bet amount"
  else Except.error "DEV_MODE disabled"

/-- `joinGameMock`: dev entry point; ends by calling `_calculateGameResult`. -/
def joinGameMock (s : RPSState) (gameId sender value plainChoice t : Nat) :
    Except String RPSState :=
  if DEV_MODE = true then
    if (s.games gameId).exists_ = true then
      if (s.games gameId).state = GameState.Waiting then
        if (s.games gameId).player1 ≠ sender then
          if value = (s.games gameId).betAmount then
            if plainChoice ≤ 2 then
              let s2 := { s with
                games := updMap s.games gameId
                  { (s.games gameId) with
                    player2 := sender
                    player2ChoiceHandle := plainChoice
                    state := GameState.BothPlayed } }
              calculateGameResult s2 gameId t
            else Except.error "Invalid choice"
          else Except.error "Bet amount must match"
        else Except.error "Cannot join your own game"
      else Except.error "Game not waiting for players"
    else Except.error "Game does not exist"
  else Except.error "DEV_MODE disabled"

/-- `cancelGame` (creator only, while `Waiting`). -/
def cancelGame (s : RPSState) (gameId sender : Nat) : Except String RPSState :=
  if (s.games gameId).exists_ = true then
    if sender = (s.games gameId).player1 then
      if (s.games gameId).state = GameState.Waiting then
        Except.ok { s with
          games := updMap s.games gameId
            { (s.games gameId) with state := GameState.Cancelled } }
      else Except.error "Game not in waiting state"
    else Except.error "Only game creator can perform this action"
  else Except.error "Game does not exist"

/-- `_updatePlayerStats`. -/
def updatePlayerStats (s : RPSState) (player : Nat) (isWinner : Bool)
    (winnings : Nat) : RPSState :=
  let stats := s.playerStats player
  let stats2 :=
    if isWinner = true then
      { stats with
        totalGames := stats.totalGames + 1
        wins := stats.wins + 1
        totalWinnings := stats.totalWinnings + winnings }
    else
      { stats with totalGames := stats.totalGames + 1, losses := stats.losses + 1 }
  { s with playerStats := updMap s.playerStats player stats2 }

/-- `claimPrize`: requires an existing `Finished` game whose recorded winner is
the caller; resets `winner` to `address(0)` before updating stats and paying. -/
def claimPrize (s : RPSState) (gameId sender : Nat) : Except String RPSState :=
  if (s.games gameId).exists_ = true then
    if (s.games gameId).state = GameState.Finished then
      if (s.games gameId).winner = sender then
        let prize := (s.games gameId).betAmount * 2
        let s2 := { s with
          games := updMap s.games gameId { (s.games gameId) with winner := 0 } }
        Except.ok (updatePlayerStats s2 sender true prize)
      else Except.error "Only winner can claim prize"
    else Except.error "Game not finished"
  else Except.error "Game does not exist"

/-- `requestChoiceDecryption`: participant-only, `Finished`-only; the actual
request goes to the external `FHE.requestDecryption`, so contract storage is
unchanged. -/
def requestChoiceDecryption (s : RPSState) (gameId sender : Nat)
    (isPlayer1 : Bool) : Except String RPSState :=
  if (s.games gameId).exists_ = true then
    if sender = (s.games gameId).player1 ∨ sender = (s.games gameId).player2 then
      if (s.games gameId).state = GameState.Finished then
        Except.ok s
      else Except.error "Game not finished"
    else Except.error "Not a game participant"
  else Except.error "Game does not exist"

/-- Events emitted by the decryption callback. -/
inductive RPSEvent where
  | ChoiceRevealed (gameId sender choice t : Nat)
deriving DecidableEq, Repr

/-- `__handleChoiceDecryption(uint256 requestID, uint32[] plaintexts)`:
the body performs no request-id bookkeeping or caller check at all; it reads
`plaintexts[0]` (reverting only if the array is empty) and casts it to the
`GameChoice` enum (reverting only if the value exceeds 2), then emits
`ChoiceRevealed`.  Storage is returned unchanged. -/
def handleChoiceDecryption (s : RPSState) (requestID sender : Nat)
    (plaintexts : List Nat) (t : Nat) : Except String (RPSState × RPSEvent) :=
  match plaintexts with
  | [] => Except.error "array index out of bounds"
  | c :: _ =>
    if c ≤ 2 then
      Except.ok (s, RPSEvent.ChoiceRevealed requestID sender c t)
    else Except.error "enum conversion out of range"

end RPS

namespace Cloud

/-- The `EncryptedFileEntry` struct of src/contracts/CloudFHE.sol: the
"FHEVM-ready" variant stores the encrypted size/visibility as `bytes`
(modelled as byte lists). -/
structure EncryptedFileEntry where
  uploader : Nat
  ciphertext : List Nat
  uploadedAt : Nat
  exists_ : Bool
  encryptedSize : List Nat
  encryptedVisibility : List Nat
deriving DecidableEq, Repr

/-- The `EncryptedUserStats` struct. -/
structure EncryptedUserStats where
  encryptedFileCount : List Nat
  encryptedTotalSize : List Nat
deriving DecidableEq, Repr

/-- Contract storage of the CloudFHE registry (src/contracts/CloudFHE.sol). -/
structure CloudState where
  nextId : Nat
  owner : Nat
  files : Nat → EncryptedFileEntry
  userFileCount : Nat → Nat
  encryptedUserStats : Nat → EncryptedUserStats
  userFiles : Nat → List Nat
  paused : Bool

/-- `MAX_FILE_SIZE = 100 * 1024`. -/
def MAX_FILE_SIZE : Nat := 100 * 1024

/-- `MAX_FILES_PER_USER = 10`. -/
def MAX_FILES_PER_USER : Nat := 10

/-- Solidity zero value of `EncryptedFileEntry` (mapping default, and the
value left behind by `delete files[id]`). -/
def defaultEntry : EncryptedFileEntry :=
  { uploader := 0, ciphertext := [], uploadedAt := 0, exists_ := false,
    encryptedSize := [], encryptedVisibility := [] }

/-- Storage right after the constructor: `owner = msg.sender; nextId = 1`. -/
def initCloudState (deployer : Nat) : CloudState :=
  { nextId := 1, owner := deployer, files := fun _ => defaultEntry,
    userFileCount := fun _ => 0,
    encryptedUserStats := fun _ => { encryptedFileCount := [], encryptedTotalSize := [] },
    userFiles := fun _ => [], paused := false }

/-- `uploadCiphertext`: the `validFileSize` modifier checks run first, then
`whenNotPaused`, then the quota and sender checks of the body, then the entry
is stored, the placeholder user-stats writes happen, and the id is indexed. -/
def uploadCiphertext (s : CloudState) (sender : Nat)
    (ciphertext encryptedSize encryptedVisibility : List Nat) (t : Nat) :
    Except String (CloudState × Nat) :=
  if 0 < ciphertext.length then
    if ciphertext.length ≤ MAX_FILE_SIZE then
      if s.paused = false then
        if s.userFileCount sender < MAX_FILES_PER_USER then
          if sender ≠ 0 then
            let id := s.nextId
            Except.ok ({ s with
              nextId := id + 1
              files := updMap s.files id
                { uploader := sender, ciphertext := ciphertext, uploadedAt := t,
                  exists_ := true, encryptedSize := encryptedSize,
                  encryptedVisibility := encryptedVisibility }
              encryptedUserStats := updMap s.encryptedUserStats sender
                { encryptedFileCount := encryptedSize, encryptedTotalSize := encryptedSize }
              userFileCount := updMap s.userFileCount sender (s.userFileCount sender + 1)
              userFiles := updMap s.userFiles sender (s.userFiles sender ++ [id]) }, id)
          else Except.error "Invalid sender"
        else Except.error "User file limit reached"
      else Except.error "Contract is paused"
    else Except.error "File exceeds 100KB limit"
  else Except.error "File cannot be empty"

/-- `deleteFile`: uploader-or-owner only; `delete files[id]` zeroes the entry
and `userFileCount[uploader]--` runs (reverting on Solidity 0.8 underflow).
The id is NOT removed from `userFiles[uploader]`. -/
def deleteFile (s : CloudState) (sender id : Nat) : Except String CloudState :=
  if (s.files id).exists_ = true then
    if sender = (s.files id).uploader ∨ sender = s.owner then
      let uploader := (s.files id).uploader
      if s.userFileCount uploader = 0 then
        Except.error "arithmetic underflow"
      else
        Except.ok { s with
          files := updMap s.files id defaultEntry
          userFileCount := updMap s.userFileCount uploader (s.userFileCount uploader - 1) }
    else Except.error "Only file uploader or owner can delete"
  else Except.error "File does not exist"

/-- `setFileVisibility`: uploader-or-owner only; replaces the stored
encrypted visibility bytes. -/
def setFileVisibility (s : CloudState) (sender id : Nat) (newVisibility : List Nat) :
    Except String CloudState :=
  if (s.files id).exists_ = true then
    if sender = (s.files id).uploader ∨ sender = s.owner then
      Except.ok { s with
        files := updMap s.files id
          { (s.files id) with encryptedVisibility := newVisibility } }
    else Except.error "Only file uploader or owner can modify visibility"
  else Except.error "File does not exist"

/-- `makeFilePubliclyDecryptable`: uploader-or-owner only; in this variant
all FHE calls are comments, so storage is unchanged. -/
def makeFilePubliclyDecryptable (s : CloudState) (sender id : Nat) :
    Except String CloudState :=
  if (s.files id).exists_ = true then
    if sender = (s.files id).uploader ∨ sender = s.owner then
      Except.ok s
    else Except.error "Only file uploader or owner can make file public"
  else Except.error "File does not exist"

/-- The swap-and-pop loop body of `_removeFileFromUserList`: replace the
first occurrence of `x` (the loop breaks after the first hit). -/
def replaceFirst : List Nat → Nat → Nat → List Nat
  | [], _, _ => []
  | y :: ys, x, v => if y = x then v :: ys else y :: replaceFirst ys x v

/-- The effect of `_removeFileFromUserList` on the stored list: if `fileId`
occurs, its first occurrence is overwritten with the last element and the
last element is popped; otherwise the loop falls through and the list is
unchanged. -/
def removeUserFile (l : List Nat) (fileId : Nat) : List Nat :=
  if fileId ∈ l then (replaceFirst l fileId (l.getLastD 0)).dropLast else l

/-- `transferFileOwnership`: uploader-or-owner only, recipient nonzero; NO
quota check is made on the recipient.  `_removeFileFromUserList` also
decrements the previous owner's `userFileCount` unconditionally (reverting
on underflow), then the id is pushed onto the recipient's index and the
recipient's count incremented. -/
def transferFileOwnership (s : CloudState) (sender id toAddr : Nat)
    (encryptedTransferData : List Nat) : Except String CloudState :=
  if (s.files id).exists_ = true then
    if sender = (s.files id).uploader ∨ sender = s.owner then
      if toAddr ≠ 0 then
        let previousOwner := (s.files id).uploader
        if s.userFileCount previousOwner = 0 then
          Except.error "arithmetic underflow"
        else
          let files2 := updMap s.files id { (s.files id) with uploader := toAddr }
          let userFiles1 := updMap s.userFiles previousOwner
            (removeUserFile (s.userFiles previousOwner) id)
          let userFiles2 := updMap userFiles1 toAddr (userFiles1 toAddr ++ [id])
          let count1 := updMap s.userFileCount previousOwner
            (s.userFileCount previousOwner - 1)
          let count2 := updMap count1 toAddr (count1 toAddr + 1)
          Except.ok { s with
            files := files2
            userFiles := userFiles2
            userFileCount := count2 }
      else Except.error "Invalid recipient address"
    else Except.error "Only file uploader or owner can transfer file"
  else Except.error "File does not exist"

/-- `pause` (owner only). -/
def pause (s : CloudState) (sender : Nat) : Except String CloudState :=
  if sender = s.owner then Except.ok { s with paused := true }
  else Except.error "Only owner can call this function"

/-- `unpause` (owner only). -/
def unpause (s : CloudState) (sender : Nat) : Except String CloudState :=
  if sender = s.owner then Except.ok { s with paused := false }
  else Except.error "Only owner can call this function"

/-- Number of live (non-deleted) file entries currently owned by `u`:
entry ids are drawn from `1 ≤ id < nextId`, but since id `0` is never
assigned and the default entry has `exists_ = false`, counting over
`Finset.range nextId` is exact. -/
def liveOwnedCount (s : CloudState) (u : Nat) : Nat :=
  ((Finset.range s.nextId).filter
    (fun i => (s.files i).exists_ = true ∧ (s.files i).uploader = u)).card

end Cloud

namespace CloudFhe

/-- The `EncryptedFileEntry` struct of the full FHEVM CloudFHE variant
(src/unnamed/part_000): sizes and visibility are real FHE handles
(`euint32` / `ebool`), modelled as opaque `Nat` handle ids. -/
structure EncryptedFileEntry where
  uploader : Nat
  ciphertext : List Nat
  uploadedAt : Nat
  exists_ : Bool
  encryptedSize : Nat
  encryptedVisibility : Nat
deriving DecidableEq, Repr

/-- Contract storage of the FHEVM CloudFHE variant plus the symbolic state
of the external FHE co-processor that the contract's ACL calls manipulate:
`acl h p` is `FHE.isSenderAllowed(h)` evaluated for principal `p`,
`aclThis h` records `FHE.allowThis(h)`, and `nextHandle` supplies the fresh
handle produced by a symbolic homomorphic operation such as `FHE.gt`. -/
structure State where
  nextId : Nat
  owner : Nat
  files : Nat → EncryptedFileEntry
  userFileCount : Nat → Nat
  userFiles : Nat → List Nat
  acl : Nat → Nat → Bool
  aclThis : Nat → Bool
  nextHandle : Nat
  paused : Bool

/-- `compareEncryptedFileSizes` of src/unnamed/part_000: both `fileExists`
modifiers run, then the caller's ACL access to BOTH stored size handles is
verified with `FHE.isSenderAllowed` before the symbolic `FHE.gt` produces
the result handle, which is then granted to the caller and the contract. -/
def compareEncryptedFileSizes (s : State) (sender id1 id2 : Nat) :
    Except String (State × Nat) :=
  if (s.files id1).exists_ = true then
    if (s.files id2).exists_ = true then
      let size1 := (s.files id1).encryptedSize
      let size2 := (s.files id2).encryptedSize
      if s.acl size1 sender = true then
        if s.acl size2 sender = true then
          let result := s.nextHandle
          Except.ok ({ s with
            nextHandle := s.nextHandle + 1
            acl := fun h p => if h = result ∧ p = sender then true else s.acl h p
            aclThis := fun h => if h = result then true else s.aclThis h }, result)
        else Except.error "Unauthorized access to encrypted size 2"
      else Except.error "Unauthorized access to encrypted size 1"
    else Except.error "File does not exist"
  else Except.error "File does not exist"

end CloudFhe

namespace RPS

/-- One public transaction of `RockPaperScissors`, from any caller
(`msg.sender` is never `address(0)` on Ethereum).  Failed (reverting)
transactions leave storage unchanged, so only successful ones are steps. -/
inductive Step : RPSState → RPSState → Prop where
  | create {s : RPSState} {sender value handle : Nat} {allowed : Bool} {t : Nat}
      {s2 : RPSState} {gid : Nat} : sender ≠ 0 →
      createGame s sender value handle allowed t = Except.ok (s2, gid) → Step s s2
  | createMock {s : RPSState} {sender value choice t : Nat}
      {s2 : RPSState} {gid : Nat} : sender ≠ 0 →
      createGameMock s sender value choice t = Except.ok (s2, gid) → Step s s2
  | join {s : RPSState} (gid sender : Nat) {value handle : Nat} {allowed : Bool}
      {t : Nat} {s2 : RPSState} : sender ≠ 0 →
      joinGame s gid sender value handle allowed t = Except.ok s2 → Step s s2
  | joinMock {s : RPSState} (gid sender : Nat) {value choice t : Nat}
      {s2 : RPSState} : sender ≠ 0 →
      joinGameMock s gid sender value choice t = Except.ok s2 → Step s s2
  | cancel {s : RPSState} (gid sender : Nat) {s2 : RPSState} : sender ≠ 0 →
      cancelGame s gid sender = Except.ok s2 → Step s s2
  | claim {s : RPSState} (gid sender : Nat) {s2 : RPSState} : sender ≠ 0 →
      claimPrize s gid sender = Except.ok s2 → Step s s2
  | reqDecrypt {s : RPSState} {gid sender : Nat} {isPlayer1 : Bool}
      {s2 : RPSState} : sender ≠ 0 →
      requestChoiceDecryption s gid sender isPlayer1 = Except.ok s2 → Step s s2
  | callback {s : RPSState} {rid sender : Nat} {pts : List Nat} {t : Nat}
      {s2 : RPSState} {ev : RPSEvent} : sender ≠ 0 →
      handleChoiceDecryption s rid sender pts t = Except.ok (s2, ev) → Step s s2

/-- Storage states reachable from deployment by successful transactions. -/
inductive Reachable : RPSState → Prop where
  | init : Reachable initState
  | step : ∀ s s2, Reachable s → Step s s2 → Reachable s2

end RPS

section ClaimC2

/-- C2: the spec claims the plaintext resolution path is gated behind a
constant flag that is OFF in the build as shipped.  The shipped source
declares `bool public constant DEV_MODE = true;`, so the plaintext path is
taken in every build (and `_calculateGameResult` has no homomorphic branch
at all): the code contradicts the claim. -/
theorem rps_dev_mode_enabled_in_shipped_build : RPS.DEV_MODE = true := rfl

end ClaimC2

section ClaimC1

/-- A storage state holding game 0 in `BothPlayed` with player1 = 1 having
played Rock (0) and player2 = 2 having played Scissors (1). -/
def rockScissorsSt : RPS.RPSState :=
  { RPS.initState with
    nextGameId := 1
    games := updMap (fun _ => RPS.defaultGame) 0
      { RPS.defaultGame with
        player1 := 1
        player2 := 2
        player1ChoiceHandle := 0
        player2ChoiceHandle := 1
        state := RPS.GameState.BothPlayed
        betAmount := RPS.MIN_BET
        exists_ := true } }

/-- C1 counterexample: with c1 = Rock = 0 and c2 = Scissors = 1 we have
`(c1 - c2) mod 3 = 2`, so the claim's rule names player2 the winner; the
code resolves the game to player1 (Rock beats Scissors, matching the spec's
own Scenario A).  The claim's direction of the mod-3 rule is therefore false
on the code. -/
theorem rps_mod3_rule_counterexample :
    ((0 : Int) - 1) % 3 = 2 ∧
    (RPS.calculateGameResult rockScissorsSt 0 5).map
      (fun s2 => (s2.games 0).winner) = Except.ok 1 ∧
    (rockScissorsSt.games 0).player1 = 1 ∧ (rockScissorsSt.games 0).player2 = 2 := by
  refine ⟨by decide, by rfl, by rfl, by rfl⟩

/-- C1 (amended): resolving a `BothPlayed` game whose stored plaintext
choices are c1, c2 ∈ {0,1,2} records player1 as winner when
`(c1 - c2) mod 3 = 2`, player2 when `(c1 - c2) mod 3 = 1`, and nobody
(address 0) when `(c1 - c2) mod 3 = 0`. -/
theorem rps_resolution_winner_mod3 (s : RPS.RPSState) (gameId t c1 c2 : Nat)
    (hstate : (s.games gameId).state = RPS.GameState.BothPlayed)
    (h1 : (s.games gameId).player1ChoiceHandle % 256 = c1)
    (h2 : (s.games gameId).player2ChoiceHandle % 256 = c2)
    (hb1 : c1 ≤ 2) (hb2 : c2 ≤ 2) :
    (RPS.calculateGameResult s gameId t).map (fun s2 => (s2.games gameId).winner) =
      Except.ok (if ((c1 : Int) - (c2 : Int)) % 3 = 0 then 0
        else if ((c1 : Int) - (c2 : Int)) % 3 = 2 then (s.games gameId).player1
        else (s.games gameId).player2) := by
  interval_cases c1 <;> interval_cases c2 <;>
    simp [RPS.calculateGameResult, RPS.DEV_MODE, hstate, h1, h2, updMap, Except.map]

/-- Witness for `rps_resolution_winner_mod3` at the concrete Rock-vs-Scissors
state. -/
theorem rps_resolution_winner_mod3_witness :
    (RPS.calculateGameResult rockScissorsSt 0 5).map
      (fun s2 => (s2.games 0).winner) =
      Except.ok (if ((0 : Int) - (1 : Int)) % 3 = 0 then 0
        else if ((0 : Int) - (1 : Int)) % 3 = 2 then (rockScissorsSt.games 0).player1
        else (rockScissorsSt.games 0).player2) :=
  rps_resolution_winner_mod3 rockScissorsSt 0 5 0 1 (by decide) (by decide)
    (by decide) (by decide) (by decide)

end ClaimC1

section ClaimC5

/-- The tie scenario of the spec (Scenario B): player 1 creates with
Paper (2), player 2 joins with Paper (2); the game resolves in the same
transaction. -/
def tieTrace : Except String RPS.RPSState := do
  let (s1, g) ← RPS.createGameMock RPS.initState 1 RPS.MIN_BET 2 0
  RPS.joinGameMock s1 g 2 RPS.MIN_BET 2 0

/-- C5: the code evaluated at the tie scenario.  The transition to
`Finished` happens (with a null winner), the global counter
`totalGamesPlayed` is bumped, but NEITHER player's `PlayerStats.totalGames`
is incremented — per-player stats are only ever written by `claimPrize`.
The claim (both `totalGames` counters incremented atomically with the tie
transition) is contradicted by the code. -/
theorem rps_tie_leaves_player_stats_unchanged :
    tieTrace.map (fun s => ((s.games 0).state, (s.games 0).winner,
      s.totalGamesPlayed,
      (s.playerStats 1).totalGames, (s.playerStats 2).totalGames,
      (s.playerStats 1).wins, (s.playerStats 2).wins)) =
    Except.ok (RPS.GameState.Finished, 0, 1, 0, 0, 0, 0) := by
  rfl

end ClaimC5

section ClaimC6

/-- C6: the decryption callback evaluated at a request id (999) that was
never issued: from the deployment state no game exists, so
`requestChoiceDecryption` can never have run, yet `__handleChoiceDecryption`
succeeds, leaves storage unchanged and emits a `ChoiceRevealed` event for
the spoofed request — it performs no request-id (or caller) validation at
all, contradicting the claim that it must fail. -/
theorem rps_choice_callback_accepts_unknown_request :
    (∀ gid, (RPS.initState.games gid).exists_ = false) ∧
    RPS.handleChoiceDecryption RPS.initState 999 77 [0] 0 =
      Except.ok (RPS.initState, RPS.RPSEvent.ChoiceRevealed 999 77 0 0) :=
  ⟨fun _ => rfl, rfl⟩

end ClaimC6

section ClaimC9

/-- C9: upload accepts a payload of exactly `MAX_FILE_SIZE` (100 KB) bytes
whenever the caller is under quota (and the registry is not paused and the
sender is a real account), and rejects a payload of `MAX_FILE_SIZE + 1`
bytes with the size error; the size check is a modifier that runs before
any state is written, and the model's `Except.error` result carries no
successor state. -/
theorem cloud_upload_size_bounds (s : Cloud.CloudState) (sender t : Nat)
    (c c2 es ev : List Nat)
    (hp : s.paused = false) (hs : sender ≠ 0)
    (hq : s.userFileCount sender < Cloud.MAX_FILES_PER_USER)
    (hc : c.length = Cloud.MAX_FILE_SIZE)
    (hc2 : c2.length = Cloud.MAX_FILE_SIZE + 1) :
    (Cloud.uploadCiphertext s sender c es ev t).isOk = true ∧
    Cloud.uploadCiphertext s sender c2 es ev t =
      Except.error "File exceeds 100KB limit" := by
  constructor
  · simp [Cloud.uploadCiphertext, hp, hs, hq, hc, Cloud.MAX_FILE_SIZE,
      Except.isOk, Except.toBool]
  · simp [Cloud.uploadCiphertext, hc2, Cloud.MAX_FILE_SIZE]

/-- Witness for `cloud_upload_size_bounds` at the deployment state with
concrete payloads of 102400 and 102401 bytes. -/
theorem cloud_upload_size_bounds_witness :
    (Cloud.uploadCiphertext (Cloud.initCloudState 9) 5
      (List.replicate 102400 0) [0] [0] 0).isOk = true ∧
    Cloud.uploadCiphertext (Cloud.initCloudState 9) 5
      (List.replicate 102401 0) [0] [0] 0 =
      Except.error "File exceeds 100KB limit" :=
  cloud_upload_size_bounds (Cloud.initCloudState 9) 5 0
    (List.replicate 102400 0) (List.replicate 102401 0) [0] [0]
    rfl (by decide) (by decide)
    (by simp only [List.length_replicate]; decide)
    (by simp only [List.length_replicate]; decide)

end ClaimC9

section ClaimC3

/-- C3: `compareEncryptedFileSizes` (FHEVM variant, src/unnamed/part_000)
succeeds exactly when both entries exist AND the caller has ACL access to
the size handle of id1 AND, independently, to the size handle of id2; in
particular it fails whenever the caller lacks access to either operand. -/
theorem cloudfhe_compare_requires_both_acl (s : CloudFhe.State) (sender id1 id2 : Nat) :
    (CloudFhe.compareEncryptedFileSizes s sender id1 id2).isOk = true ↔
      ((s.files id1).exists_ = true ∧ (s.files id2).exists_ = true ∧
       s.acl (s.files id1).encryptedSize sender = true ∧
       s.acl (s.files id2).encryptedSize sender = true) := by
  simp only [CloudFhe.compareEncryptedFileSizes]
  repeat' split
  all_goals simp_all [Except.isOk, Except.toBool]

end ClaimC3

section RPSLemmas

theorem calculateGameResult_stats {s : RPS.RPSState} {gid t : Nat} {s2 : RPS.RPSState}
    (h : RPS.calculateGameResult s gid t = Except.ok s2) :
    s2.playerStats = s.playerStats := by
  simp only [RPS.calculateGameResult] at h
  split at h
  · simp only [Except.ok.injEq] at h
    subst h
    rfl
  · exact absurd h (by simp)

theorem createGame_stats {s : RPS.RPSState} {sender value handle : Nat}
    {allowed : Bool} {t : Nat} {s2 : RPS.RPSState} {gid : Nat}
    (h : RPS.createGame s sender value handle allowed t = Except.ok (s2, gid)) :
    s2.playerStats = s.playerStats := by
  simp only [RPS.createGame] at h
  split at h
  · split at h
    · simp only [Except.ok.injEq, Prod.mk.injEq] at h
      obtain ⟨h1, h2⟩ := h
      subst h1
      rfl
    · exact absurd h (by simp)
  · exact absurd h (by simp)

theorem createGameMock_stats {s : RPS.RPSState} {sender value choice t : Nat}
    {s2 : RPS.RPSState} {gid : Nat}
    (h : RPS.createGameMock s sender value choice t = Except.ok (s2, gid)) :
    s2.playerStats = s.playerStats := by
  simp only [RPS.createGameMock] at h
  split at h
  · split at h
    · split at h
      · simp only [Except.ok.injEq, Prod.mk.injEq] at h
        obtain ⟨h1, h2⟩ := h
        subst h1
        rfl
      · exact absurd h (by simp)
    · exact absurd h (by simp)
  · exact absurd h (by simp)

theorem joinGame_stats {s : RPS.RPSState} {gid sender value handle : Nat}
    {allowed : Bool} {t : Nat} {s2 : RPS.RPSState}
    (h : RPS.joinGame s gid sender value handle allowed t = Except.ok s2) :
    s2.playerStats = s.playerStats := by
  simp only [RPS.joinGame] at h
  split at h
  · split at h
    · split at h
      · split at h
        · split at h
          · exact (calculateGameResult_stats h).trans rfl
          · exact absurd h (by simp)
        · exact absurd h (by simp)
      · exact absurd h (by simp)
    · exact absurd h (by simp)
  · exact absurd h (by simp)

theorem joinGameMock_stats {s : RPS.RPSState} {gid sender value choice t : Nat}
    {s2 : RPS.RPSState}
    (h : RPS.joinGameMock s gid sender value choice t = Except.ok s2) :
    s2.playerStats = s.playerStats := by
  simp only [RPS.joinGameMock] at h
  split at h
  · split at h
    · split at h
      · split at h
        · split at h
          · split at h
            · exact (calculateGameResult_stats h).trans rfl
            · exact absurd h (by simp)
          · exact absurd h (by simp)
        · exact absurd h (by simp)
      · exact absurd h (by simp)
    · exact absurd h (by simp)
  · exact absurd h (by simp)

theorem cancelGame_stats {s : RPS.RPSState} {gid sender : Nat} {s2 : RPS.RPSState}
    (h : RPS.cancelGame s gid sender = Except.ok s2) :
    s2.playerStats = s.playerStats := by
  simp only [RPS.cancelGame] at h
  split at h
  · split at h
    · split at h
      · simp only [Except.ok.injEq] at h
        subst h
        rfl
      · exact absurd h (by simp)
    · exact absurd h (by simp)
  · exact absurd h (by simp)

theorem requestChoiceDecryption_state {s : RPS.RPSState} {gid sender : Nat}
    {isPlayer1 : Bool} {s2 : RPS.RPSState}
    (h : RPS.requestChoiceDecryption s gid sender isPlayer1 = Except.ok s2) :
    s2 = s := by
  simp only [RPS.requestChoiceDecryption] at h
  split at h
  · split at h
    · split at h
      · simp only [Except.ok.injEq] at h
        exact h.symm
      · exact absurd h (by simp)
    · exact absurd h (by simp)
  · exact absurd h (by simp)

theorem handleChoiceDecryption_state {s : RPS.RPSState} {rid sender : Nat}
    {pts : List Nat} {t : Nat} {s2 : RPS.RPSState} {ev : RPS.RPSEvent}
    (h : RPS.handleChoiceDecryption s rid sender pts t = Except.ok (s2, ev)) :
    s2 = s := by
  simp only [RPS.handleChoiceDecryption] at h
  split at h
  · exact absurd h (by simp)
  · split at h
    · simp only [Except.ok.injEq, Prod.mk.injEq] at h
      exact h.1.symm
    · exact absurd h (by simp)

theorem claimPrize_losses_ties {s : RPS.RPSState} {gid sender : Nat} {s2 : RPS.RPSState}
    (h : RPS.claimPrize s gid sender = Except.ok s2) (p : Nat) :
    (s2.playerStats p).losses = (s.playerStats p).losses ∧
    (s2.playerStats p).ties = (s.playerStats p).ties := by
  simp only [RPS.claimPrize] at h
  split at h
  · split at h
    · split at h
      · simp only [Except.ok.injEq] at h
        subst h
        simp only [RPS.updatePlayerStats, updMap]
        by_cases hp : p = sender
        · subst hp
          simp
        · simp [hp]
      · exact absurd h (by simp)
    · exact absurd h (by simp)
  · exact absurd h (by simp)

end RPSLemmas

section ClaimC10

/-- C10: in every reachable storage state of the game registry, every
player's `losses` and `ties` counters are zero: `_updatePlayerStats` is only
ever invoked from `claimPrize` with `isWinner = true`, so the losing branch
and the `ties` field are dead. -/
theorem rps_losses_ties_always_zero :
    ∀ s, RPS.Reachable s →
      ∀ p, (s.playerStats p).losses = 0 ∧ (s.playerStats p).ties = 0 := by
  intro s hreach
  induction hreach with
  | init =>
    intro p
    exact ⟨rfl, rfl⟩
  | step s s2 hr hstep ih =>
    intro p
    cases hstep with
    | create hnz h =>
      rw [createGame_stats h]
      exact ih p
    | createMock hnz h =>
      rw [createGameMock_stats h]
      exact ih p
    | join gid0 sender0 hnz h =>
      rw [joinGame_stats h]
      exact ih p
    | joinMock gid0 sender0 hnz h =>
      rw [joinGameMock_stats h]
      exact ih p
    | cancel gid0 sender0 hnz h =>
      rw [cancelGame_stats h]
      exact ih p
    | claim gid0 sender0 hnz h =>
      obtain ⟨hl, ht⟩ := claimPrize_losses_ties h p
      rw [hl, ht]
      exact ih p
    | reqDecrypt hnz h =>
      rw [requestChoiceDecryption_state h]
      exact ih p
    | callback hnz h =>
      rw [handleChoiceDecryption_state h]
      exact ih p

/-- Witness for `rps_losses_ties_always_zero` at the deployment state. -/
theorem rps_losses_ties_always_zero_witness :
    (RPS.initState.playerStats 7).losses = 0 ∧
    (RPS.initState.playerStats 7).ties = 0 :=
  rps_losses_ties_always_zero RPS.initState RPS.Reachable.init 7

end ClaimC10

section RPSFrameLemmas

theorem calculateGameResult_frame {s : RPS.RPSState} {gid t : Nat} {s2 : RPS.RPSState}
    (h : RPS.calculateGameResult s gid t = Except.ok s2) :
    s2.nextGameId = s.nextGameId ∧
    (s.games gid).state = RPS.GameState.BothPlayed ∧
    ∀ i, i ≠ gid → s2.games i = s.games i := by
  simp only [RPS.calculateGameResult] at h
  split at h
  case isTrue hst =>
    simp only [Except.ok.injEq] at h
    subst h
    exact ⟨rfl, hst, fun i hi => updMap_other _ _ _ _ hi⟩
  case isFalse => exact absurd h (by simp)

theorem createGame_frame {s : RPS.RPSState} {sender value handle : Nat}
    {allowed : Bool} {t : Nat} {s2 : RPS.RPSState} {gid : Nat}
    (h : RPS.createGame s sender value handle allowed t = Except.ok (s2, gid)) :
    s2.nextGameId = s.nextGameId + 1 ∧
    ∀ i, i ≠ s.nextGameId → s2.games i = s.games i := by
  simp only [RPS.createGame] at h
  split at h
  · split at h
    · simp only [Except.ok.injEq, Prod.mk.injEq] at h
      obtain ⟨h1, h2⟩ := h
      subst h1
      exact ⟨rfl, fun i hi => updMap_other _ _ _ _ hi⟩
    · exact absurd h (by simp)
  · exact absurd h (by simp)

theorem createGameMock_frame {s : RPS.RPSState} {sender value choice t : Nat}
    {s2 : RPS.RPSState} {gid : Nat}
    (h : RPS.createGameMock s sender value choice t = Except.ok (s2, gid)) :
    s2.nextGameId = s.nextGameId + 1 ∧
    ∀ i, i ≠ s.nextGameId → s2.games i = s.games i := by
  simp only [RPS.createGameMock] at h
  split at h
  · split at h
    · split at h
      · simp only [Except.ok.injEq, Prod.mk.injEq] at h
        obtain ⟨h1, h2⟩ := h
        subst h1
        exact ⟨rfl, fun i hi => updMap_other _ _ _ _ hi⟩
      · exact absurd h (by simp)
    · exact absurd h (by simp)
  · exact absurd h (by simp)

theorem joinGame_frame {s : RPS.RPSState} {gid sender value handle : Nat}
    {allowed : Bool} {t : Nat} {s2 : RPS.RPSState}
    (h : RPS.joinGame s gid sender value handle allowed t = Except.ok s2) :
    s2.nextGameId = s.nextGameId ∧
    (s.games gid).state = RPS.GameState.Waiting ∧
    ∀ i, i ≠ gid → s2.games i = s.games i := by
  simp only [RPS.joinGame] at h
  split at h
  case isFalse => exact absurd h (by simp)
  case isTrue =>
  split at h
  case isFalse => exact absurd h (by simp)
  case isTrue hst =>
  split at h
  case isFalse => exact absurd h (by simp)
  case isTrue =>
  split at h
  case isFalse => exact absurd h (by simp)
  case isTrue =>
  split at h
  case isFalse => exact absurd h (by simp)
  case isTrue =>
  obtain ⟨hn, _, hfr⟩ := calculateGameResult_frame h
  refine ⟨hn.trans rfl, hst, ?_⟩
  intro i hi
  exact (hfr i hi).trans (updMap_other _ _ _ _ hi)

theorem joinGameMock_frame {s : RPS.RPSState} {gid sender value choice t : Nat}
    {s2 : RPS.RPSState}
    (h : RPS.joinGameMock s gid sender value choice t = Except.ok s2) :
    s2.nextGameId = s.nextGameId ∧
    (s.games gid).state = RPS.GameState.Waiting ∧
    ∀ i, i ≠ gid → s2.games i = s.games i := by
  simp only [RPS.joinGameMock] at h
  split at h
  case isFalse => exact absurd h (by simp)
  case isTrue =>
  split at h
  case isFalse => exact absurd h (by simp)
  case isTrue =>
  split at h
  case isFalse => exact absurd h (by simp)
  case isTrue hst =>
  split at h
  case isFalse => exact absurd h (by simp)
  case isTrue =>
  split at h
  case isFalse => exact absurd h (by simp)
  case isTrue =>
  split at h
  case isFalse => exact absurd h (by simp)
  case isTrue =>
  obtain ⟨hn, _, hfr⟩ := calculateGameResult_frame h
  refine ⟨hn.trans rfl, hst, ?_⟩
  intro i hi
  exact (hfr i hi).trans (updMap_other _ _ _ _ hi)

theorem cancelGame_frame {s : RPS.RPSState} {gid sender : Nat} {s2 : RPS.RPSState}
    (h : RPS.cancelGame s gid sender = Except.ok s2) :
    s2.nextGameId = s.nextGameId ∧
    (s.games gid).state = RPS.GameState.Waiting ∧
    ∀ i, i ≠ gid → s2.games i = s.games i := by
  simp only [RPS.cancelGame] at h
  split at h
  case isFalse => exact absurd h (by simp)
  case isTrue =>
  split at h
  case isFalse => exact absurd h (by simp)
  case isTrue =>
  split at h
  case isFalse => exact absurd h (by simp)
  case isTrue hst =>
  simp only [Except.ok.injEq] at h
  subst h
  exact ⟨rfl, hst, fun i hi => updMap_other _ _ _ _ hi⟩

theorem claimPrize_frame {s : RPS.RPSState} {gid sender : Nat} {s2 : RPS.RPSState}
    (h : RPS.claimPrize s gid sender = Except.ok s2) :
    s2.nextGameId = s.nextGameId ∧
    (s.games gid).winner = sender ∧
    ∀ i, i ≠ gid → s2.games i = s.games i := by
  simp only [RPS.claimPrize] at h
  split at h
  case isFalse => exact absurd h (by simp)
  case isTrue =>
  split at h
  case isFalse => exact absurd h (by simp)
  case isTrue =>
  split at h
  case isFalse => exact absurd h (by simp)
  case isTrue hwin =>
  simp only [Except.ok.injEq] at h
  subst h
  exact ⟨rfl, hwin, fun i hi => updMap_other _ _ _ _ hi⟩

/-- Once a game is `Finished` with the null winner sentinel, no successful
transaction changes its record or shrinks `nextGameId`. -/
theorem step_preserves_finished_game {s s2 : RPS.RPSState} {gid : Nat}
    (hlt : gid < s.nextGameId)
    (hfin : (s.games gid).state = RPS.GameState.Finished)
    (hw : (s.games gid).winner = 0)
    (hstep : RPS.Step s s2) :
    s2.games gid = s.games gid ∧ gid < s2.nextGameId := by
  cases hstep with
  | create hnz h =>
    obtain ⟨hn, hfr⟩ := createGame_frame h
    exact ⟨hfr gid (by omega), by omega⟩
  | createMock hnz h =>
    obtain ⟨hn, hfr⟩ := createGameMock_frame h
    exact ⟨hfr gid (by omega), by omega⟩
  | join gid0 sender0 hnz h =>
    obtain ⟨hn, hst, hfr⟩ := joinGame_frame h
    by_cases hg : gid = gid0
    · subst hg
      rw [hfin] at hst
      exact absurd hst (by simp)
    · exact ⟨hfr gid hg, by omega⟩
  | joinMock gid0 sender0 hnz h =>
    obtain ⟨hn, hst, hfr⟩ := joinGameMock_frame h
    by_cases hg : gid = gid0
    · subst hg
      rw [hfin] at hst
      exact absurd hst (by simp)
    · exact ⟨hfr gid hg, by omega⟩
  | cancel gid0 sender0 hnz h =>
    obtain ⟨hn, hst, hfr⟩ := cancelGame_frame h
    by_cases hg : gid = gid0
    · subst hg
      rw [hfin] at hst
      exact absurd hst (by simp)
    · exact ⟨hfr gid hg, by omega⟩
  | claim gid0 sender0 hnz h =>
    obtain ⟨hn, hwin, hfr⟩ := claimPrize_frame h
    by_cases hg : gid = gid0
    · subst hg
      rw [hw] at hwin
      exact absurd hwin.symm hnz
    · exact ⟨hfr gid hg, by omega⟩
  | reqDecrypt hnz h =>
    rw [requestChoiceDecryption_state h]
    exact ⟨rfl, hlt⟩
  | callback hnz h =>
    rw [handleChoiceDecryption_state h]
    exact ⟨rfl, hlt⟩

end RPSFrameLemmas

section ClaimC4

/-- C4: for any existing `Finished` game whose recorded winner is a real
account, `claimPrize` succeeds once, resets the winner field to the
`address(0)` sentinel, and afterwards every further `claimPrize` on the same
game by any real account fails, across any sequence of successful
transactions. -/
theorem rps_claim_prize_at_most_once (s : RPS.RPSState) (gid sender : Nat)
    (hlt : gid < s.nextGameId)
    (hex : (s.games gid).exists_ = true)
    (hfin : (s.games gid).state = RPS.GameState.Finished)
    (hw : (s.games gid).winner = sender)
    (hnz : sender ≠ 0) :
    ∃ s2, RPS.claimPrize s gid sender = Except.ok s2 ∧
      (s2.games gid).winner = 0 ∧
      ∀ s3, Relation.ReflTransGen RPS.Step s2 s3 →
        ∀ sender2, sender2 ≠ 0 → ∀ s4,
          RPS.claimPrize s3 gid sender2 ≠ Except.ok s4 := by
  have hok : RPS.claimPrize s gid sender =
      Except.ok (RPS.updatePlayerStats
        { s with games := updMap s.games gid { (s.games gid) with winner := 0 } }
        sender true ((s.games gid).betAmount * 2)) := by
    simp [RPS.claimPrize, hex, hfin, hw]
  refine ⟨_, hok, ?_, ?_⟩
  · exact congrArg RPS.Game.winner (updMap_same s.games gid _)
  · have hg2 : (RPS.updatePlayerStats
        { s with games := updMap s.games gid { (s.games gid) with winner := 0 } }
        sender true ((s.games gid).betAmount * 2)).games gid =
        { (s.games gid) with winner := 0 } := updMap_same _ _ _
    intro s3 hrt sender2 hnz2 s4
    have key : (s3.games gid) = { (s.games gid) with winner := 0 } ∧
        gid < s3.nextGameId := by
      clear hok
      induction hrt with
      | refl => exact ⟨hg2, hlt⟩
      | tail hab hbc ih =>
        obtain ⟨hgb, hltb⟩ := ih
        have hfinb := congrArg RPS.Game.state hgb
        have hwb := congrArg RPS.Game.winner hgb
        obtain ⟨hc1, hc2⟩ := step_preserves_finished_game hltb
          (hfinb.trans hfin) hwb hbc
        exact ⟨hc1.trans hgb, hc2⟩
    obtain ⟨hg3, hlt3⟩ := key
    have hx3 : (s3.games gid).exists_ = true :=
      (congrArg RPS.Game.exists_ hg3).trans hex
    have hf3 : (s3.games gid).state = RPS.GameState.Finished :=
      (congrArg RPS.Game.state hg3).trans hfin
    have hw3 : (s3.games gid).winner = 0 :=
      congrArg RPS.Game.winner hg3
    intro hcontra
    simp [RPS.claimPrize, hx3, hf3, hw3, Ne.symm hnz2] at hcontra

end ClaimC4

section ClaimC4Witness

/-- A concrete storage state with game 0 `Finished`, won by player 2. -/
def finishedSt : RPS.RPSState :=
  { RPS.initState with
    nextGameId := 1
    games := updMap (fun _ => RPS.defaultGame) 0
      { RPS.defaultGame with
        player1 := 1
        player2 := 2
        state := RPS.GameState.Finished
        winner := 2
        betAmount := RPS.MIN_BET
        exists_ := true } }

/-- Witness for `rps_claim_prize_at_most_once` at the concrete finished
game. -/
theorem rps_claim_prize_at_most_once_witness :
    ∃ s2, RPS.claimPrize finishedSt 0 2 = Except.ok s2 ∧
      (s2.games 0).winner = 0 ∧
      ∀ s3, Relation.ReflTransGen RPS.Step s2 s3 →
        ∀ sender2, sender2 ≠ 0 → ∀ s4,
          RPS.claimPrize s3 0 sender2 ≠ Except.ok s4 :=
  rps_claim_prize_at_most_once finishedSt 0 2 (by decide) (by decide)
    (by decide) (by decide) (by decide)

end ClaimC4Witness

namespace Cloud

/-- One successful transaction of the file registry, excluding
`transferFileOwnership`. -/
inductive StepNoTransfer : CloudState → CloudState → Prop where
  | upload {s : CloudState} {sender : Nat} {c es ev : List Nat} {t : Nat}
      {s2 : CloudState} {id : Nat} :
      uploadCiphertext s sender c es ev t = Except.ok (s2, id) →
      StepNoTransfer s s2
  | delete {s : CloudState} (sender id : Nat) {s2 : CloudState} :
      deleteFile s sender id = Except.ok s2 → StepNoTransfer s s2
  | setVis {s : CloudState} (sender id : Nat) {v : List Nat} {s2 : CloudState} :
      setFileVisibility s sender id v = Except.ok s2 → StepNoTransfer s s2
  | makePub {s : CloudState} (sender id : Nat) {s2 : CloudState} :
      makeFilePubliclyDecryptable s sender id = Except.ok s2 → StepNoTransfer s s2
  | pauseStep {s : CloudState} (sender : Nat) {s2 : CloudState} :
      pause s sender = Except.ok s2 → StepNoTransfer s s2
  | unpauseStep {s : CloudState} (sender : Nat) {s2 : CloudState} :
      unpause s sender = Except.ok s2 → StepNoTransfer s s2

/-- Registry states reachable from deployment without ownership transfers. -/
inductive ReachableNoTransfer (deployer : Nat) : CloudState → Prop where
  | init : ReachableNoTransfer deployer (initCloudState deployer)
  | step : ∀ s s2, ReachableNoTransfer deployer s → StepNoTransfer s s2 →
      ReachableNoTransfer deployer s2

/-- The quota bookkeeping invariant: ids at or above `nextId` are unassigned,
`userFileCount` agrees with the number of live entries owned, and the count
is within the cap. -/
def QuotaInv (s : CloudState) : Prop :=
  (∀ i, s.nextId ≤ i → (s.files i).exists_ = false) ∧
  (∀ u, liveOwnedCount s u = s.userFileCount u) ∧
  (∀ u, s.userFileCount u ≤ MAX_FILES_PER_USER)

theorem liveOwnedCount_congr {s s2 : CloudState} (hn : s2.nextId = s.nextId)
    (hf : ∀ i, i < s.nextId →
      (s2.files i).exists_ = (s.files i).exists_ ∧
      (s2.files i).uploader = (s.files i).uploader) (u : Nat) :
    liveOwnedCount s2 u = liveOwnedCount s u := by
  unfold liveOwnedCount
  rw [hn]
  congr 1
  apply Finset.filter_congr
  intro i hi
  rw [Finset.mem_range] at hi
  rw [(hf i hi).1, (hf i hi).2]

theorem upload_QuotaInv {s : CloudState} {sender : Nat} {c es ev : List Nat}
    {t : Nat} {s2 : CloudState} {id : Nat}
    (h : uploadCiphertext s sender c es ev t = Except.ok (s2, id))
    (hinv : QuotaInv s) : QuotaInv s2 := by
  obtain ⟨hfresh, hagree, hbound⟩ := hinv
  simp only [uploadCiphertext] at h
  split at h
  case isFalse => exact absurd h (by simp)
  case isTrue =>
  split at h
  case isFalse => exact absurd h (by simp)
  case isTrue =>
  split at h
  case isFalse => exact absurd h (by simp)
  case isTrue =>
  split at h
  case isFalse => exact absurd h (by simp)
  case isTrue hq =>
  split at h
  case isFalse => exact absurd h (by simp)
  case isTrue =>
  simp only [Except.ok.injEq, Prod.mk.injEq] at h
  obtain ⟨h1, h2⟩ := h
  have hnext : s2.nextId = s.nextId + 1 := by rw [← h1]
  have hfiles : s2.files = updMap s.files s.nextId
      { uploader := sender, ciphertext := c, uploadedAt := t,
        exists_ := true, encryptedSize := es, encryptedVisibility := ev } := by
    rw [← h1]
  have hcnt : s2.userFileCount =
      updMap s.userFileCount sender (s.userFileCount sender + 1) := by
    rw [← h1]
  refine ⟨?_, ?_, ?_⟩
  · intro i hi
    rw [hnext] at hi
    rw [hfiles, updMap_other _ _ _ _ (by omega)]
    exact hfresh i (by omega)
  · intro u
    have hsplit : liveOwnedCount s2 u =
        (if sender = u then 1 else 0) + liveOwnedCount s u := by
      unfold liveOwnedCount
      rw [hnext, hfiles]
      rw [Finset.range_succ, Finset.filter_insert]
      have hcong : Finset.filter
          (fun i => (updMap s.files s.nextId
            { uploader := sender, ciphertext := c, uploadedAt := t,
              exists_ := true, encryptedSize := es, encryptedVisibility := ev } i).exists_
              = true ∧
            (updMap s.files s.nextId
            { uploader := sender, ciphertext := c, uploadedAt := t,
              exists_ := true, encryptedSize := es, encryptedVisibility := ev } i).uploader
              = u)
          (Finset.range s.nextId) =
          Finset.filter
            (fun i => (s.files i).exists_ = true ∧ (s.files i).uploader = u)
            (Finset.range s.nextId) := by
        apply Finset.filter_congr
        intro i hi
        rw [Finset.mem_range] at hi
        rw [updMap_other _ _ _ _ (by omega)]
      by_cases hu : sender = u
      · rw [if_pos (show (updMap s.files s.nextId
            { uploader := sender, ciphertext := c, uploadedAt := t,
              exists_ := true, encryptedSize := es, encryptedVisibility := ev }
              s.nextId).exists_ = true ∧
            (updMap s.files s.nextId
            { uploader := sender, ciphertext := c, uploadedAt := t,
              exists_ := true, encryptedSize := es, encryptedVisibility := ev }
              s.nextId).uploader = u from by rw [updMap_same]; exact ⟨rfl, hu⟩)]
        rw [hcong, if_pos hu]
        rw [Finset.card_insert_of_not_mem (by
          intro hmem
          exact absurd (Finset.mem_range.mp (Finset.filter_subset _ _ hmem))
            (by omega))]
        omega
      · rw [if_neg (show ¬((updMap s.files s.nextId
            { uploader := sender, ciphertext := c, uploadedAt := t,
              exists_ := true, encryptedSize := es, encryptedVisibility := ev }
              s.nextId).exists_ = true ∧
            (updMap s.files s.nextId
            { uploader := sender, ciphertext := c, uploadedAt := t,
              exists_ := true, encryptedSize := es, encryptedVisibility := ev }
              s.nextId).uploader = u) from by
          rw [updMap_same]
          exact fun hc => hu hc.2)]
        rw [hcong, if_neg hu]
        omega
    rw [hsplit, hcnt]
    by_cases hu : u = sender
    · subst hu
      rw [updMap_same, if_pos rfl]
      have := hagree u
      omega
    · rw [updMap_other _ _ _ _ hu, if_neg (fun hc => hu hc.symm)]
      have := hagree u
      omega
  · intro u
    rw [hcnt]
    by_cases hu : u = sender
    · subst hu
      rw [updMap_same]
      omega
    · rw [updMap_other _ _ _ _ hu]
      exact hbound u

theorem delete_QuotaInv {s : CloudState} {sender id : Nat} {s2 : CloudState}
    (h : deleteFile s sender id = Except.ok s2)
    (hinv : QuotaInv s) : QuotaInv s2 := by
  obtain ⟨hfresh, hagree, hbound⟩ := hinv
  simp only [deleteFile] at h
  split at h
  case isFalse => exact absurd h (by simp)
  case isTrue hex =>
  split at h
  case isFalse => exact absurd h (by simp)
  case isTrue =>
  split at h
  case isTrue => exact absurd h (by simp)
  case isFalse hcz =>
  simp only [Except.ok.injEq] at h
  have hnext : s2.nextId = s.nextId := by rw [← h]
  have hfiles : s2.files = updMap s.files id defaultEntry := by rw [← h]
  have hcnt : s2.userFileCount = updMap s.userFileCount (s.files id).uploader
      (s.userFileCount (s.files id).uploader - 1) := by rw [← h]
  have hlt : id < s.nextId := by
    by_contra hge
    rw [hfresh id (by omega)] at hex
    exact absurd hex (by simp)
  refine ⟨?_, ?_, ?_⟩
  · intro i hi
    rw [hnext] at hi
    rw [hfiles, updMap_other _ _ _ _ (by omega)]
    exact hfresh i hi
  · intro u
    by_cases hu : u = (s.files id).uploader
    · subst hu
      have hstep : liveOwnedCount s2 (s.files id).uploader =
          liveOwnedCount s (s.files id).uploader - 1 := by
        unfold liveOwnedCount
        rw [hnext, hfiles]
        have hset : Finset.filter
            (fun i => (updMap s.files id defaultEntry i).exists_ = true ∧
              (updMap s.files id defaultEntry i).uploader = (s.files id).uploader)
            (Finset.range s.nextId) =
            (Finset.filter (fun i => (s.files i).exists_ = true ∧
              (s.files i).uploader = (s.files id).uploader)
              (Finset.range s.nextId)).erase id := by
          apply Finset.ext
          intro i
          simp only [Finset.mem_filter, Finset.mem_erase, Finset.mem_range]
          constructor
          · intro hmem
            by_cases hid : i = id
            · subst hid
              rw [updMap_same] at hmem
              exact absurd hmem.2.1 (by simp [defaultEntry])
            · rw [updMap_other _ _ _ _ hid] at hmem
              exact ⟨hid, hmem.1, hmem.2⟩
          · intro hmem
            obtain ⟨hid, hr, hp⟩ := hmem
            rw [updMap_other _ _ _ _ hid]
            exact ⟨hr, hp⟩
        rw [hset]
        rw [Finset.card_erase_of_mem (by
          simp only [Finset.mem_filter, Finset.mem_range]
          exact ⟨hlt, hex, trivial⟩)]
      rw [hstep, hcnt, updMap_same, hagree]
    · have hstep : liveOwnedCount s2 u = liveOwnedCount s u := by
        unfold liveOwnedCount
        rw [hnext, hfiles]
        congr 1
        apply Finset.filter_congr
        intro i hi
        by_cases hid : i = id
        · subst hid
          rw [updMap_same]
          simp only [defaultEntry]
          constructor
          · intro hc
            exact absurd hc.1 (by simp)
          · intro hc
            rw [hc.2] at hu
            exact absurd hc.1 (by
              intro hcx
              exact hu rfl)
        · rw [updMap_other _ _ _ _ hid]
      rw [hstep, hcnt, updMap_other _ _ _ _ hu]
      exact hagree u
  · intro u
    rw [hcnt]
    by_cases hu : u = (s.files id).uploader
    · subst hu
      rw [updMap_same]
      have := hbound (s.files id).uploader
      omega
    · rw [updMap_other _ _ _ _ hu]
      exact hbound u

theorem setVis_QuotaInv {s : CloudState} {sender id : Nat} {v : List Nat}
    {s2 : CloudState} (h : setFileVisibility s sender id v = Except.ok s2)
    (hinv : QuotaInv s) : QuotaInv s2 := by
  obtain ⟨hfresh, hagree, hbound⟩ := hinv
  simp only [setFileVisibility] at h
  split at h
  case isFalse => exact absurd h (by simp)
  case isTrue hex =>
  split at h
  case isFalse => exact absurd h (by simp)
  case isTrue =>
  simp only [Except.ok.injEq] at h
  have hnext : s2.nextId = s.nextId := by rw [← h]
  have hcnt : s2.userFileCount = s.userFileCount := by rw [← h]
  have hfiles : s2.files = updMap s.files id
      { (s.files id) with encryptedVisibility := v } := by rw [← h]
  have hpt : ∀ i, (s2.files i).exists_ = (s.files i).exists_ ∧
      (s2.files i).uploader = (s.files i).uploader := by
    intro i
    rw [hfiles]
    by_cases hid : i = id
    · subst hid
      rw [updMap_same]
      exact ⟨rfl, rfl⟩
    · rw [updMap_other _ _ _ _ hid]
      exact ⟨rfl, rfl⟩
  refine ⟨?_, ?_, ?_⟩
  · intro i hi
    rw [hnext] at hi
    rw [(hpt i).1]
    exact hfresh i hi
  · intro u
    rw [liveOwnedCount_congr hnext (fun i _ => hpt i) u, hcnt]
    exact hagree u
  · intro u
    rw [hcnt]
    exact hbound u

theorem makePub_QuotaInv {s : CloudState} {sender id : Nat} {s2 : CloudState}
    (h : makeFilePubliclyDecryptable s sender id = Except.ok s2)
    (hinv : QuotaInv s) : QuotaInv s2 := by
  simp only [makeFilePubliclyDecryptable] at h
  split at h
  case isFalse => exact absurd h (by simp)
  case isTrue =>
  split at h
  case isFalse => exact absurd h (by simp)
  case isTrue =>
  simp only [Except.ok.injEq] at h
  rw [← h]
  exact hinv

theorem pause_QuotaInv {s : CloudState} {sender : Nat} {s2 : CloudState}
    (h : pause s sender = Except.ok s2) (hinv : QuotaInv s) : QuotaInv s2 := by
  simp only [pause] at h
  split at h
  case isFalse => exact absurd h (by simp)
  case isTrue =>
  simp only [Except.ok.injEq] at h
  rw [← h]
  exact hinv

theorem unpause_QuotaInv {s : CloudState} {sender : Nat} {s2 : CloudState}
    (h : unpause s sender = Except.ok s2) (hinv : QuotaInv s) : QuotaInv s2 := by
  simp only [unpause] at h
  split at h
  case isFalse => exact absurd h (by simp)
  case isTrue =>
  simp only [Except.ok.injEq] at h
  rw [← h]
  exact hinv

theorem initCloudState_QuotaInv (deployer : Nat) :
    QuotaInv (initCloudState deployer) := by
  refine ⟨fun i hi => rfl, fun u => ?_, fun u => ?_⟩
  · simp [liveOwnedCount, initCloudState, defaultEntry]
  · simp [initCloudState, MAX_FILES_PER_USER]

theorem reachableNoTransfer_QuotaInv {deployer : Nat} {s : CloudState}
    (h : ReachableNoTransfer deployer s) : QuotaInv s := by
  induction h with
  | init => exact initCloudState_QuotaInv deployer
  | step s s2 hr hstep ih =>
    cases hstep with
    | upload h => exact upload_QuotaInv h ih
    | delete sender id h => exact delete_QuotaInv h ih
    | setVis sender id h => exact setVis_QuotaInv h ih
    | makePub sender id h => exact makePub_QuotaInv h ih
    | pauseStep sender h => exact pause_QuotaInv h ih
    | unpauseStep sender h => exact unpause_QuotaInv h ih

end Cloud

section ClaimC7

/-- A legal transaction trace: user 2 uploads ten files (reaching the cap),
user 1 uploads one file and then transfers it to user 2.
`transferFileOwnership` performs no quota check on the recipient. -/
def overQuotaTrace : Except String Cloud.CloudState := do
  let s0 := Cloud.initCloudState 9
  let (s, _) ← Cloud.uploadCiphertext s0 2 [1] [0] [0] 0
  let (s, _) ← Cloud.uploadCiphertext s 2 [1] [0] [0] 0
  let (s, _) ← Cloud.uploadCiphertext s 2 [1] [0] [0] 0
  let (s, _) ← Cloud.uploadCiphertext s 2 [1] [0] [0] 0
  let (s, _) ← Cloud.uploadCiphertext s 2 [1] [0] [0] 0
  let (s, _) ← Cloud.uploadCiphertext s 2 [1] [0] [0] 0
  let (s, _) ← Cloud.uploadCiphertext s 2 [1] [0] [0] 0
  let (s, _) ← Cloud.uploadCiphertext s 2 [1] [0] [0] 0
  let (s, _) ← Cloud.uploadCiphertext s 2 [1] [0] [0] 0
  let (s, _) ← Cloud.uploadCiphertext s 2 [1] [0] [0] 0
  let (s, _) ← Cloud.uploadCiphertext s 1 [1] [0] [0] 0
  Cloud.transferFileOwnership s 1 11 2 [0]

/-- C7 counterexample: after the trace above — every step a successful
registry operation — user 2 owns 11 live file entries, exceeding
`MAX_FILES_PER_USER = 10`: the quota invariant as claimed (over all
operations, ownership transfer included) is false. -/
theorem cloud_quota_exceeded_via_transfer :
    overQuotaTrace.map (fun st => Cloud.liveOwnedCount st 2) = Except.ok 11 ∧
    Cloud.MAX_FILES_PER_USER < 11 := by
  exact ⟨by rfl, by decide⟩

/-- C7 (amended): for every user, in every state reachable by any sequence
of uploads, deletes, visibility changes, public-decryptability grants and
pause toggles — i.e. everything except `transferFileOwnership`, which checks
no recipient quota — the number of live file entries owned never exceeds
`MAX_FILES_PER_USER`. -/
theorem cloud_quota_invariant_without_transfer (deployer : Nat)
    (s : Cloud.CloudState) (h : Cloud.ReachableNoTransfer deployer s) (u : Nat) :
    Cloud.liveOwnedCount s u ≤ Cloud.MAX_FILES_PER_USER := by
  obtain ⟨hfresh, hagree, hbound⟩ := Cloud.reachableNoTransfer_QuotaInv h
  rw [hagree u]
  exact hbound u

/-- Witness for `cloud_quota_invariant_without_transfer` at the deployment
state. -/
theorem cloud_quota_invariant_without_transfer_witness :
    Cloud.liveOwnedCount (Cloud.initCloudState 9) 2 ≤ Cloud.MAX_FILES_PER_USER :=
  cloud_quota_invariant_without_transfer 9 (Cloud.initCloudState 9)
    Cloud.ReachableNoTransfer.init 2

end ClaimC7

namespace Cloud

theorem replaceFirst_append {x : Nat} (a b : List Nat) (v : Nat) (hx : x ∉ a) :
    replaceFirst (a ++ x :: b) x v = a ++ v :: b := by
  induction a with
  | nil => simp [replaceFirst]
  | cons y ys ih =>
    have hxy : ¬(y = x) := fun hc => (List.ne_of_not_mem_cons hx) hc.symm
    rw [List.cons_append]
    simp only [replaceFirst]
    rw [if_neg hxy, ih (List.not_mem_of_not_mem_cons hx)]
    rfl

theorem getLastD_append_cons (a : List Nat) (y : Nat) (b : List Nat) (d : Nat) :
    (a ++ y :: b).getLastD d = b.getLastD y := by
  induction a generalizing d with
  | nil => exact List.getLastD_cons d y b
  | cons z zs ih =>
    rw [List.cons_append, List.getLastD_cons]
    exact ih z

theorem removeUserFile_perm_erase {l : List Nat} {x : Nat}
    (hn : l.Nodup) (hx : x ∈ l) :
    (removeUserFile l x).Perm (l.erase x) := by
  obtain ⟨a, b, rfl⟩ := List.append_of_mem hx
  have hxa : x ∉ a := fun hc =>
    (List.disjoint_of_nodup_append hn) hc (List.mem_cons_self x b)
  unfold removeUserFile
  rw [if_pos hx, replaceFirst_append a b _ hxa,
    List.erase_append_right _ hxa, List.erase_cons_head]
  rcases List.eq_nil_or_concat b with hb | ⟨c, d, rfl⟩
  · subst hb
    rw [getLastD_append_cons a x [] 0]
    rw [show (([] : List Nat)).getLastD x = x from rfl]
    rw [show a ++ x :: ([] : List Nat) = a ++ [x] from rfl, List.dropLast_concat]
    simp
  · simp only [List.concat_eq_append] at hx ⊢
    rw [getLastD_append_cons a x (c ++ [d]) 0, getLastD_append_cons c d [] x]
    rw [show (([] : List Nat)).getLastD d = d from rfl]
    rw [show a ++ d :: (c ++ [d]) = (a ++ d :: c) ++ [d] by simp,
      List.dropLast_concat]
    exact List.Perm.append_left a ((List.perm_append_singleton d c).symm)

theorem removeUserFile_not_mem {l : List Nat} {x : Nat} (hx : x ∉ l) :
    removeUserFile l x = l := by
  unfold removeUserFile
  rw [if_neg hx]

theorem removeUserFile_nodup {l : List Nat} {x : Nat} (hn : l.Nodup) :
    (removeUserFile l x).Nodup := by
  by_cases hx : x ∈ l
  · exact ((removeUserFile_perm_erase hn hx).nodup_iff).mpr (hn.erase x)
  · rw [removeUserFile_not_mem hx]
    exact hn

theorem removeUserFile_mem {l : List Nat} {x : Nat} (hn : l.Nodup) (hx : x ∈ l)
    (y : Nat) : y ∈ removeUserFile l x ↔ (y ∈ l ∧ y ≠ x) := by
  rw [(removeUserFile_perm_erase hn hx).mem_iff, hn.mem_erase_iff]
  exact and_comm

end Cloud

namespace Cloud

/-- The per-user index invariant of the claim: ids at or above `nextId` are
unassigned, and each user's `userFiles` list is duplicate-free and contains
exactly the ids of the live entries that user currently owns. -/
def IndexInv (s : CloudState) : Prop :=
  (∀ i, s.nextId ≤ i → (s.files i).exists_ = false) ∧
  ∀ u, (s.userFiles u).Nodup ∧
    ∀ id, id ∈ s.userFiles u ↔
      ((s.files id).exists_ = true ∧ (s.files id).uploader = u)

theorem upload_IndexInv {s : CloudState} {sender : Nat} {c es ev : List Nat}
    {t : Nat} {s2 : CloudState} {id : Nat}
    (h : uploadCiphertext s sender c es ev t = Except.ok (s2, id))
    (hinv : IndexInv s) : IndexInv s2 := by
  obtain ⟨hfresh, hidx⟩ := hinv
  simp only [uploadCiphertext] at h
  split at h
  case isFalse => exact absurd h (by simp)
  case isTrue =>
  split at h
  case isFalse => exact absurd h (by simp)
  case isTrue =>
  split at h
  case isFalse => exact absurd h (by simp)
  case isTrue =>
  split at h
  case isFalse => exact absurd h (by simp)
  case isTrue =>
  split at h
  case isFalse => exact absurd h (by simp)
  case isTrue =>
  simp only [Except.ok.injEq, Prod.mk.injEq] at h
  obtain ⟨h1, h2⟩ := h
  have hnext : s2.nextId = s.nextId + 1 := by rw [← h1]
  have hfiles : s2.files = updMap s.files s.nextId
      { uploader := sender, ciphertext := c, uploadedAt := t,
        exists_ := true, encryptedSize := es, encryptedVisibility := ev } := by
    rw [← h1]
  have huf : s2.userFiles =
      updMap s.userFiles sender (s.userFiles sender ++ [s.nextId]) := by
    rw [← h1]
  have hnotmem : s.nextId ∉ s.userFiles sender := fun hc =>
    absurd ((hidx sender).2 s.nextId |>.mp hc).1
      (by rw [hfresh s.nextId (le_refl _)]; simp)
  constructor
  · intro i hi
    rw [hnext] at hi
    rw [hfiles, updMap_other _ _ _ _ (by omega)]
    exact hfresh i (by omega)
  · intro u
    rw [huf, hfiles]
    by_cases hu : u = sender
    · subst hu
      rw [updMap_same]
      constructor
      · exact ((List.perm_append_singleton s.nextId (s.userFiles u)).nodup_iff).mpr
          (List.nodup_cons.mpr ⟨hnotmem, (hidx u).1⟩)
      · intro idq
        rw [List.mem_append, List.mem_singleton]
        by_cases hq : idq = s.nextId
        · subst hq
          rw [updMap_same]
          simp [hnotmem]
        · rw [updMap_other _ _ _ _ hq]
          simp only [hq, or_false]
          exact (hidx u).2 idq
    · rw [updMap_other _ _ _ _ hu]
      refine ⟨(hidx u).1, ?_⟩
      intro idq
      by_cases hq : idq = s.nextId
      · rw [hq, updMap_same]
        simp only
        constructor
        · intro hc
          exact absurd (((hidx u).2 s.nextId).mp hc).1
            (by rw [hfresh s.nextId (le_refl _)]; simp)
        · intro hc
          exact absurd hc.2 (fun hcc => hu hcc.symm)
      · rw [updMap_other _ _ _ _ hq]
        exact (hidx u).2 idq

theorem setVis_IndexInv {s : CloudState} {sender id : Nat} {v : List Nat}
    {s2 : CloudState} (h : setFileVisibility s sender id v = Except.ok s2)
    (hinv : IndexInv s) : IndexInv s2 := by
  obtain ⟨hfresh, hidx⟩ := hinv
  simp only [setFileVisibility] at h
  split at h
  case isFalse => exact absurd h (by simp)
  case isTrue hex =>
  split at h
  case isFalse => exact absurd h (by simp)
  case isTrue =>
  simp only [Except.ok.injEq] at h
  have hnext : s2.nextId = s.nextId := by rw [← h]
  have huf : s2.userFiles = s.userFiles := by rw [← h]
  have hfiles : s2.files = updMap s.files id
      { (s.files id) with encryptedVisibility := v } := by rw [← h]
  have hpt : ∀ i, (s2.files i).exists_ = (s.files i).exists_ ∧
      (s2.files i).uploader = (s.files i).uploader := by
    intro i
    rw [hfiles]
    by_cases hid : i = id
    · subst hid
      rw [updMap_same]
      exact ⟨rfl, rfl⟩
    · rw [updMap_other _ _ _ _ hid]
      exact ⟨rfl, rfl⟩
  constructor
  · intro i hi
    rw [hnext] at hi
    rw [(hpt i).1]
    exact hfresh i hi
  · intro u
    rw [huf]
    refine ⟨(hidx u).1, ?_⟩
    intro idq
    rw [(hpt idq).1, (hpt idq).2]
    exact (hidx u).2 idq

end Cloud

namespace Cloud

theorem transfer_IndexInv {s : CloudState} {sender id toAddr : Nat}
    {td : List Nat} {s2 : CloudState}
    (h : transferFileOwnership s sender id toAddr td = Except.ok s2)
    (hinv : IndexInv s) :
    IndexInv s2 ∧
    ((s.files id).uploader ≠ toAddr → id ∉ s2.userFiles (s.files id).uploader) := by
  obtain ⟨hfresh, hidx⟩ := hinv
  simp only [transferFileOwnership] at h
  split at h
  case isFalse => exact absurd h (by simp)
  case isTrue hex =>
  split at h
  case isFalse => exact absurd h (by simp)
  case isTrue =>
  split at h
  case isFalse => exact absurd h (by simp)
  case isTrue =>
  split at h
  case isTrue => exact absurd h (by simp)
  case isFalse =>
  simp only [Except.ok.injEq] at h
  have hnext : s2.nextId = s.nextId := by rw [← h]
  have hfiles : s2.files = updMap s.files id
      { (s.files id) with uploader := toAddr } := by rw [← h]
  have huf : s2.userFiles = updMap (updMap s.userFiles (s.files id).uploader
      (removeUserFile (s.userFiles (s.files id).uploader) id)) toAddr
      ((updMap s.userFiles (s.files id).uploader
        (removeUserFile (s.userFiles (s.files id).uploader) id)) toAddr ++ [id]) := by
    rw [← h]
  have hlt : id < s.nextId := by
    by_contra hge
    rw [hfresh id (by omega)] at hex
    exact absurd hex (by simp)
  have hmemP : id ∈ s.userFiles (s.files id).uploader :=
    ((hidx (s.files id).uploader).2 id).mpr ⟨hex, rfl⟩
  have hnodupP := (hidx (s.files id).uploader).1
  have hown : ∀ idq u,
      ((s2.files idq).exists_ = true ∧ (s2.files idq).uploader = u) ↔
      (if idq = id then toAddr = u
       else ((s.files idq).exists_ = true ∧ (s.files idq).uploader = u)) := by
    intro idq u
    rw [hfiles]
    by_cases hq : idq = id
    · rw [hq, updMap_same, if_pos rfl]
      simp [hex]
    · rw [updMap_other _ _ _ _ hq, if_neg hq]
  have hufu : ∀ u, s2.userFiles u =
      if u = toAddr then
        ((if toAddr = (s.files id).uploader
          then removeUserFile (s.userFiles (s.files id).uploader) id
          else s.userFiles toAddr) ++ [id])
      else (if u = (s.files id).uploader
        then removeUserFile (s.userFiles (s.files id).uploader) id
        else s.userFiles u) := by
    intro u
    rw [huf]
    by_cases hu : u = toAddr
    · rw [hu, updMap_same, if_pos rfl]
      rfl
    · rw [updMap_other _ _ _ _ hu, if_neg hu]
      rfl
  have hremove : (s.files id).uploader ≠ toAddr →
      id ∉ s2.userFiles (s.files id).uploader := by
    intro hne
    rw [hufu _, if_neg hne, if_pos rfl, removeUserFile_mem hnodupP hmemP id]
    simp
  refine ⟨⟨?_, ?_⟩, hremove⟩
  · intro i hi
    rw [hnext] at hi
    rw [hfiles, updMap_other _ _ _ _ (by omega)]
    exact hfresh i hi
  · intro u
    by_cases hu : u = toAddr
    · by_cases htp : toAddr = (s.files id).uploader
      · have hl : s2.userFiles u =
            removeUserFile (s.userFiles (s.files id).uploader) id ++ [id] := by
          rw [hufu u, if_pos hu, if_pos htp]
        rw [hl]
        constructor
        · refine ((List.perm_append_singleton _ _).nodup_iff).mpr
            (List.nodup_cons.mpr ⟨?_, removeUserFile_nodup hnodupP⟩)
          rw [removeUserFile_mem hnodupP hmemP id]
          simp
        · intro idq
          rw [List.mem_append, List.mem_singleton,
            removeUserFile_mem hnodupP hmemP idq, hown idq u]
          by_cases hq : idq = id
          · rw [if_pos hq]
            simp [hq, hu.symm]
          · rw [if_neg hq]
            simp only [hq, or_false]
            have hup : u = (s.files id).uploader := hu.trans htp
            rw [← hup]
            constructor
            · intro hc
              exact ((hidx u).2 idq).mp hc.1
            · intro hc
              exact ⟨((hidx u).2 idq).mpr hc, hq⟩
      · have hl : s2.userFiles u = s.userFiles toAddr ++ [id] := by
          rw [hufu u, if_pos hu, if_neg htp]
        have hnm : id ∉ s.userFiles toAddr := fun hc =>
          htp ((((hidx toAddr).2 id).mp hc).2).symm
        rw [hl]
        constructor
        · exact ((List.perm_append_singleton _ _).nodup_iff).mpr
            (List.nodup_cons.mpr ⟨hnm, (hidx toAddr).1⟩)
        · intro idq
          rw [List.mem_append, List.mem_singleton, hown idq u]
          by_cases hq : idq = id
          · rw [if_pos hq]
            simp [hq, hnm, hu.symm]
          · rw [if_neg hq]
            simp only [hq, or_false]
            rw [hu]
            exact (hidx toAddr).2 idq
    · by_cases hup : u = (s.files id).uploader
      · have hl : s2.userFiles u =
            removeUserFile (s.userFiles (s.files id).uploader) id := by
          rw [hufu u, if_neg hu, if_pos hup]
        rw [hl]
        constructor
        · exact removeUserFile_nodup hnodupP
        · intro idq
          rw [removeUserFile_mem hnodupP hmemP idq, hown idq u]
          by_cases hq : idq = id
          · rw [if_pos hq]
            simp only [hq]
            constructor
            · intro hc
              exact absurd rfl hc.2
            · intro hc
              exact absurd hc.symm hu
          · rw [if_neg hq]
            rw [← hup]
            constructor
            · intro hc
              exact ((hidx u).2 idq).mp hc.1
            · intro hc
              exact ⟨((hidx u).2 idq).mpr hc, hq⟩
      · have hl : s2.userFiles u = s.userFiles u := by
          rw [hufu u, if_neg hu, if_neg hup]
        rw [hl]
        constructor
        · exact (hidx u).1
        · intro idq
          rw [hown idq u]
          by_cases hq : idq = id
          · rw [if_pos hq]
            constructor
            · intro hc
              rw [hq] at hc
              exact absurd (((hidx u).2 id).mp hc).2 (fun hcc => hup hcc.symm)
            · intro hc
              exact absurd hc.symm hu
          · rw [if_neg hq]
            exact (hidx u).2 idq

end Cloud

section ClaimC8

/-- The registry state after user 5 uploads a one-byte file (id 1) into a
fresh deployment (deployer 9): literal form of the post-upload storage. -/
def c8pre : Cloud.CloudState :=
  { nextId := 2, owner := 9,
    files := updMap (fun _ => Cloud.defaultEntry) 1
      { uploader := 5, ciphertext := [1], uploadedAt := 0, exists_ := true,
        encryptedSize := [0], encryptedVisibility := [0] },
    userFileCount := updMap (fun _ => 0) 5 1,
    encryptedUserStats := updMap
      (fun _ => { encryptedFileCount := [], encryptedTotalSize := [] }) 5
      { encryptedFileCount := [0], encryptedTotalSize := [0] },
    userFiles := updMap (fun _ => []) 5 [1],
    paused := false }

/-- The state after user 5 then deletes file 1. -/
def c8post : Cloud.CloudState :=
  match Cloud.deleteFile c8pre 5 1 with
  | Except.ok st => st
  | Except.error _ => c8pre

/-- The state after user 5 instead transfers file 1 to user 7. -/
def c8trans : Cloud.CloudState :=
  match Cloud.transferFileOwnership c8pre 5 1 7 [] with
  | Except.ok st => st
  | Except.error _ => c8pre

theorem indexInv_init : Cloud.IndexInv (Cloud.initCloudState 9) := by
  refine ⟨fun i hi => rfl, fun u => ⟨List.nodup_nil, fun id => ?_⟩⟩
  simp [Cloud.initCloudState, Cloud.defaultEntry]

theorem indexInv_c8pre : Cloud.IndexInv c8pre := by
  constructor
  · intro i hi
    simp only [c8pre] at hi
    simp only [c8pre, updMap]
    rw [if_neg (by omega : ¬i = 1)]
    rfl
  · intro u
    by_cases hu : u = 5
    · subst hu
      constructor
      · simp [c8pre, updMap]
      · intro id
        by_cases hid : id = 1
        · subst hid
          simp [c8pre, updMap]
        · simp [c8pre, updMap, hid, Cloud.defaultEntry]
    · constructor
      · simp [c8pre, updMap, hu]
      · intro id
        by_cases hid : id = 1
        · subst hid
          simp [c8pre, updMap, hu, Ne.symm hu]
        · simp [c8pre, updMap, hu, hid, Cloud.defaultEntry]

/-- C8 counterexample: from the deployment state, one upload yields a state
satisfying the index invariant; `deleteFile` then removes the entry but
leaves id 1 in user 5's `userFiles` index, so after the delete the list
contains an id the user no longer owns — `deleteFile` does not preserve the
claimed invariant. -/
theorem cloud_delete_breaks_userfiles_index :
    Cloud.uploadCiphertext (Cloud.initCloudState 9) 5 [1] [0] [0] 0 =
      Except.ok (c8pre, 1) ∧
    Cloud.IndexInv c8pre ∧
    Cloud.deleteFile c8pre 5 1 = Except.ok c8post ∧
    1 ∈ c8post.userFiles 5 ∧
    (c8post.files 1).exists_ = false := by
  exact ⟨rfl, indexInv_c8pre, rfl, by decide, by rfl⟩

/-- C8 (amended): `uploadCiphertext`, `setFileVisibility` and
`transferFileOwnership` each preserve the per-user index invariant (each
`userFiles` list is duplicate-free and holds exactly the ids the user
currently owns), and ownership transfer removes the id from the previous
owner's index whenever the recipient is a different account; `deleteFile`
however leaves the deleted id behind in the previous owner's index (see the
counterexample), so the invariant is preserved by every operation except
delete. -/
theorem cloud_userfiles_index_preservation :
    (∀ s sender c es ev t s2 id, Cloud.IndexInv s →
      Cloud.uploadCiphertext s sender c es ev t = Except.ok (s2, id) →
      Cloud.IndexInv s2) ∧
    (∀ s sender id v s2, Cloud.IndexInv s →
      Cloud.setFileVisibility s sender id v = Except.ok s2 →
      Cloud.IndexInv s2) ∧
    (∀ s sender id toAddr td s2, Cloud.IndexInv s →
      Cloud.transferFileOwnership s sender id toAddr td = Except.ok s2 →
      Cloud.IndexInv s2 ∧
      ((s.files id).uploader ≠ toAddr →
        id ∉ s2.userFiles (s.files id).uploader)) :=
  ⟨fun s sender c es ev t s2 id hinv h => Cloud.upload_IndexInv h hinv,
   fun s sender id v s2 hinv h => Cloud.setVis_IndexInv h hinv,
   fun s sender id toAddr td s2 hinv h => Cloud.transfer_IndexInv h hinv⟩

/-- Witness for `cloud_userfiles_index_preservation`: its upload conjunct
applied to a concrete upload from deployment, and its transfer conjunct
applied to a concrete transfer of file 1 from user 5 to user 7, whose old
owner index no longer holds the id. -/
theorem cloud_userfiles_index_preservation_witness :
    Cloud.IndexInv c8pre ∧ 1 ∉ c8trans.userFiles 5 := by
  have h1 : Cloud.IndexInv c8pre :=
    cloud_userfiles_index_preservation.1 (Cloud.initCloudState 9) 5 [1] [0] [0] 0
      c8pre 1 indexInv_init rfl
  have h2 := (cloud_userfiles_index_preservation.2.2 c8pre 5 1 7 [] c8trans
    h1 rfl).2 (by decide)
  exact ⟨h1, h2⟩

end ClaimC8
